import Mathlib

/-
  Verification of the tablet-allocation and auto-taper generation core of
  the xSone Taper Handout Builder (src/main.ts), shallowly embedded in Lean.

  Numbers are modelled by exact rationals: every arithmetic operation the
  source performs (division, floor to half-integers, rounding the running
  remainder to two decimals, max-clamps) is exact on the inputs considered
  here, so the rational model mirrors the source's number semantics on the
  data-model domain (positive tablet strengths, no NaN).
-/

/-- `Math.round(x * 100) / 100` from the source: JavaScript `Math.round`
rounds half toward positive infinity, i.e. `Math.round y = ⌊y + 1/2⌋`. -/
def round2 (x : ℚ) : ℚ := ⌊x * 100 + 1 / 2⌋ / 100

/-- `Math.floor(rawCount * 2) / 2` from the source: round down to the
nearest half-integer. -/
def halfFloor (x : ℚ) : ℚ := ⌊x * 2⌋ / 2

/-- The body of the `strengths.forEach` loop of `allocateTablets`,
written as structural recursion over the strengths list.  The running
`remaining` is threaded exactly as in the source: subtract
`count * strength`, then round to two decimals. -/
def allocGo : ℚ → List ℚ → List (ℚ × ℚ) × ℚ
  | remaining, [] => ([], remaining)
  | remaining, s :: rest =>
      let count := max 0 (halfFloor (remaining / s))
      let next := allocGo (round2 (remaining - count * s)) rest
      ((s, count) :: next.1, next.2)

/-- `allocateTablets(total, strengths)` from the source.  The `tablets`
record is modelled as the association list of (strength, count) pairs in
iteration order; for a deduplicated strengths list this is exactly the
source's numeric-keyed record. -/
def allocateTablets (total : ℚ) (strengths : List ℚ) : List (ℚ × ℚ) × ℚ :=
  allocGo total strengths

/-- `sum(strength * count)` over an allocation's tablets. -/
def tabletsSum (tabs : List (ℚ × ℚ)) : ℚ := (tabs.map fun p => p.1 * p.2).sum

/-- Lookup of `tablets[strength]` with the source's `|| 0` default. -/
def lookup0 (tabs : List (ℚ × ℚ)) (s : ℚ) : ℚ := (tabs.lookup s).getD 0

inductive Medication
  | prednisolone
  | prednisone
  | dexamethasone
deriving DecidableEq

inductive Mode
  | mg
  | tablet
deriving DecidableEq

/-- The `Segment` record of the source. -/
structure Segment where
  id : Int
  days : ℚ
  frequency : String
  tablets : List (ℚ × ℚ)
deriving DecidableEq

/-- The `AutoConfig` record of the source (including the code's extra
`lastRemainder` field, which the spec's AutoTaperConfig does not have). -/
structure AutoConfig where
  startDose : ℚ
  stepDays : ℚ
  mode : Mode
  stepMg : ℚ
  stepStrength : ℚ
  stepTablets : ℚ
  lastRemainder : Option ℚ
deriving DecidableEq

/-- The `AppState` record of the source, plus the module-level mutable
`segmentId` counter, made explicit as a state component. -/
structure AppState where
  medication : Medication
  useDates : Bool
  startDate : String
  strengths : List ℚ
  customStrength : String
  segments : List Segment
  auto : AutoConfig
  handoutReady : Bool
  segmentId : Int
deriving DecidableEq

/-- JavaScript `x || d` on numbers: the falsy number is `0` (there is no
NaN in the rational model). -/
def jsOr (x d : ℚ) : ℚ := if x = 0 then d else x

/-- `createSegment` from the source: builds a segment and advances the
module-level id counter. -/
def createSegment (ctr : Int) (days : ℚ) (frequency : String)
    (tablets : List (ℚ × ℚ)) : Segment × Int :=
  (⟨ctr, days, frequency, tablets⟩, ctr + 1)

/-- First-occurrence deduplication, as `Array.from(new Set(...))`. -/
def jsDedupGo (seen : List ℚ) : List ℚ → List ℚ
  | [] => []
  | x :: xs => if x ∈ seen then jsDedupGo seen xs else x :: jsDedupGo (x :: seen) xs

def jsDedup (l : List ℚ) : List ℚ := jsDedupGo [] l

/-- `unique.sort((a, b) => b - a)`: numeric sort, descending. -/
def sortDesc (l : List ℚ) : List ℚ := List.insertionSort (fun a b => b ≤ a) l

/-- `normalizeStrengths()` from the source: deduplicates and sorts the
state's strengths descending, and rewrites every segment's tablets record
to range over exactly the normalized strengths (absent entries default
to 0).  The `Number(value)`/`isNaN` filter is the identity in the
rational model and is omitted. -/
def normalizeStrengths (st : AppState) : AppState :=
  let unique := sortDesc (jsDedup st.strengths)
  { st with
    strengths := unique,
    segments := st.segments.map fun seg =>
      { seg with tablets := unique.map fun s => (s, lookup0 seg.tablets s) } }

/-- The `decrement` closure of `generateAutoSchedule`.  In `mg` mode the
step is clamped with `Math.max(0, ...)`; in `tablet` mode the source
multiplies the two fields without any clamping. -/
def decrementOf (a : AutoConfig) : ℚ :=
  match a.mode with
  | Mode.mg => max 0 a.stepMg
  | Mode.tablet => a.stepStrength * a.stepTablets

/-- The `while (dose > 0 && guard < 200)` loop of `generateAutoSchedule`:
`fuel` is `200 - guard`, `rem` the running last remainder (initially the
source's `null`), `ctr` the segment id counter. -/
def genLoop (strengths : List ℚ) (stepDays step : ℚ) :
    Nat → ℚ → Option ℚ → Int → List Segment × Option ℚ × Int
  | 0, _, rem, ctr => ([], rem, ctr)
  | fuel + 1, dose, rem, ctr =>
      if 0 < dose then
        let a := allocateTablets dose strengths
        let cs := createSegment ctr stepDays "Once daily (od)" a.1
        let next := genLoop strengths stepDays step fuel (max 0 (dose - step)) (some a.2) cs.2
        (cs.1 :: next.1, next.2)
      else ([], rem, ctr)

/-- The generation pass of `generateAutoSchedule`, given the (already
normalized) strengths: produces the generated segment list, the last
remainder, and the advanced id counter. -/
def generateSegments (a : AutoConfig) (strengths : List ℚ) (ctr : Int) :
    List Segment × Option ℚ × Int :=
  genLoop strengths (max 1 (jsOr a.stepDays 1)) (decrementOf a) 200
    (max 0 (jsOr a.startDose 0)) none ctr

/-- `generateAutoSchedule()` from the source, as a transformer of the
application state: normalize strengths, run the loop, record the last
remainder, replace the segments only when at least one was generated,
reset `handoutReady`. -/
def generateAutoSchedule (st : AppState) : AppState :=
  let st1 := normalizeStrengths st
  let out := generateSegments st1.auto st1.strengths st1.segmentId
  { st1 with
    segments := if out.1 = [] then st1.segments else out.1,
    auto := { st1.auto with lastRemainder := out.2.1 },
    handoutReady := false,
    segmentId := out.2.2 }

/-- The sequence of doses passed to `allocateTablets` by the generation
loop (the loop-carried `dose` variable, one entry per emitted step). -/
def doseSeq (step : ℚ) : Nat → ℚ → List ℚ
  | 0, _ => []
  | fuel + 1, dose =>
      if 0 < dose then dose :: doseSeq step fuel (max 0 (dose - step)) else []

/-- The doses used by `generateAutoSchedule` for a given config. -/
def generateDoses (a : AutoConfig) : List ℚ :=
  doseSeq (decrementOf a) 200 (max 0 (jsOr a.startDose 0))

/- ### Basic facts about the rounding operations -/

lemma round2_abs_sub (x : ℚ) : |round2 x - x| ≤ 1 / 200 := by
  have h1 : (⌊x * 100 + 1 / 2⌋ : ℚ) ≤ x * 100 + 1 / 2 := Int.floor_le _
  have h2 : x * 100 + 1 / 2 - 1 < (⌊x * 100 + 1 / 2⌋ : ℚ) := Int.sub_one_lt_floor _
  rw [round2, abs_le]
  constructor <;> linarith

lemma round2_nonneg {x : ℚ} (h : 0 ≤ x) : 0 ≤ round2 x := by
  have h0 : (0 : ℤ) ≤ ⌊x * 100 + 1 / 2⌋ := Int.le_floor.mpr (by push_cast; linarith)
  rw [round2]
  have : (0 : ℚ) ≤ (⌊x * 100 + 1 / 2⌋ : ℚ) := by exact_mod_cast h0
  positivity

lemma halfFloor_le (x : ℚ) : halfFloor x ≤ x := by
  rw [halfFloor]
  have := Int.floor_le (x * 2)
  linarith

lemma count_mul_le {r s : ℚ} (hr : 0 ≤ r) (hs : 0 < s) :
    max 0 (halfFloor (r / s)) * s ≤ r := by
  have h1 : max 0 (halfFloor (r / s)) ≤ r / s :=
    max_le (div_nonneg hr hs.le) (halfFloor_le _)
  calc max 0 (halfFloor (r / s)) * s ≤ (r / s) * s :=
        mul_le_mul_of_nonneg_right h1 hs.le
    _ = r := div_mul_cancel₀ r hs.ne'

/- ### Structural lemmas about the allocator -/

lemma allocGo_cons (D s : ℚ) (rest : List ℚ) :
    allocGo D (s :: rest) =
      ((s, max 0 (halfFloor (D / s))) ::
         (allocGo (round2 (D - max 0 (halfFloor (D / s)) * s)) rest).1,
       (allocGo (round2 (D - max 0 (halfFloor (D / s)) * s)) rest).2) := rfl

/-- Each pass of the allocator changes `sum + remainder` by at most the
half-cent introduced when the running remainder is rounded to two
decimals. -/
lemma allocGo_conserve (S : List ℚ) :
    ∀ D : ℚ, |tabletsSum (allocGo D S).1 + (allocGo D S).2 - D| ≤ (S.length : ℚ) / 200 := by
  induction S with
  | nil =>
      intro D
      simp [allocGo, tabletsSum]
  | cons s rest ih =>
      intro D
      set c := max 0 (halfFloor (D / s)) with hc
      set r : ℚ := round2 (D - c * s) with hr
      have h1 := ih r
      have h2 : |r - (D - c * s)| ≤ 1 / 200 := by
        rw [hr]; exact round2_abs_sub _
      show |tabletsSum ((s, c) :: (allocGo r rest).1) + (allocGo r rest).2 - D|
          ≤ ((s :: rest).length : ℚ) / 200
      have hshape : tabletsSum ((s, c) :: (allocGo r rest).1)
          = s * c + tabletsSum (allocGo r rest).1 := by
        simp [tabletsSum]
      rw [hshape]
      have hlen : (((s :: rest).length : ℕ) : ℚ) = (rest.length : ℚ) + 1 := by
        push_cast [List.length_cons]
        ring
      rw [hlen]
      have habs : |s * c + tabletsSum (allocGo r rest).1 + (allocGo r rest).2 - D|
          ≤ |tabletsSum (allocGo r rest).1 + (allocGo r rest).2 - r| + |r - (D - c * s)| := by
        have e : s * c + tabletsSum (allocGo r rest).1 + (allocGo r rest).2 - D
            = (tabletsSum (allocGo r rest).1 + (allocGo r rest).2 - r) + (r - (D - c * s)) := by
          ring
        rw [e]
        exact abs_add _ _
      linarith [h1, h2, habs]

/-- With non-negative requested dose and positive strengths the running
remainder never becomes negative. -/
lemma allocGo_rem_nonneg (S : List ℚ) :
    ∀ D : ℚ, 0 ≤ D → (∀ s ∈ S, 0 < s) → 0 ≤ (allocGo D S).2 := by
  induction S with
  | nil =>
      intro D hD _
      exact hD
  | cons s rest ih =>
      intro D hD hS
      have hs : 0 < s := hS s (List.mem_cons_self s rest)
      have hsub : 0 ≤ D - max 0 (halfFloor (D / s)) * s := by
        have := count_mul_le hD hs
        linarith
      have hr : 0 ≤ round2 (D - max 0 (halfFloor (D / s)) * s) := round2_nonneg hsub
      have := ih _ hr (fun t ht => hS t (List.mem_cons_of_mem _ ht))
      rw [allocGo_cons]
      exact this

/-- Every count the allocator emits is a non-negative half-integer. -/
lemma allocGo_counts (S : List ℚ) :
    ∀ D : ℚ, ∀ p ∈ (allocGo D S).1, 0 ≤ p.2 ∧ ∃ k : ℤ, p.2 = (k : ℚ) / 2 := by
  induction S with
  | nil =>
      intro D p hp
      simp [allocGo] at hp
  | cons s rest ih =>
      intro D p hp
      rw [allocGo_cons] at hp
      rcases List.mem_cons.mp hp with h | h
      · subst h
        refine ⟨le_max_left _ _, ⟨max 0 ⌊D / s * 2⌋, ?_⟩⟩
        show max 0 (halfFloor (D / s)) = ((max 0 ⌊D / s * 2⌋ : ℤ) : ℚ) / 2
        have h2 : (0 : ℚ) < 2 := by norm_num
        calc max 0 (halfFloor (D / s)) = max (0 / 2) ((⌊D / s * 2⌋ : ℚ) / 2) := by
              rw [halfFloor, zero_div]
          _ = max 0 ((⌊D / s * 2⌋ : ℚ)) / 2 := max_div_div_right h2.le _ _
          _ = ((max 0 ⌊D / s * 2⌋ : ℤ) : ℚ) / 2 := by
              rw [Int.cast_max, Int.cast_zero]
      · exact ih _ p h

/-- At requested dose 0 the allocator emits a zero count for every
strength and a zero remainder. -/
lemma allocGo_zero (S : List ℚ) : allocGo 0 S = (S.map fun s => (s, 0), 0) := by
  induction S with
  | nil => rfl
  | cons s rest ih =>
      have hcount : max 0 (halfFloor (0 / s)) = 0 := by
        simp [halfFloor]
      rw [allocGo_cons, hcount]
      have h0 : round2 (0 - 0 * s) = 0 := by
        have e : (0 : ℚ) - 0 * s = 0 := by ring
        rw [e, round2]
        norm_num
      rw [h0, ih]
      simp

/- ### Structural lemmas about the generation loop -/

lemma genLoop_stop {dose : ℚ} (h : dose ≤ 0) (S : List ℚ) (days step : ℚ)
    (fuel : Nat) (rem : Option ℚ) (ctr : Int) :
    genLoop S days step fuel dose rem ctr = ([], rem, ctr) := by
  cases fuel with
  | zero => rfl
  | succ n => simp [genLoop, not_lt.mpr h]

lemma genLoop_step {dose dose' : ℚ} {S : List ℚ} {days step : ℚ}
    {tabs : List (ℚ × ℚ)} {rm : ℚ} {out : List Segment × Option ℚ × Int}
    (h : 0 < dose) (hd : max 0 (dose - step) = dose')
    (halloc : allocateTablets dose S = (tabs, rm))
    {fuel : Nat} {rem : Option ℚ} {ctr : Int}
    (hnext : genLoop S days step fuel dose' (some rm) (ctr + 1) = out) :
    genLoop S days step (fuel + 1) dose rem ctr
      = ((⟨ctr, days, "Once daily (od)", tabs⟩ : Segment) :: out.1, out.2) := by
  subst hd hnext
  simp [genLoop, if_pos h, createSegment, halloc]

lemma genLoop_length_le (S : List ℚ) (days step : ℚ) :
    ∀ (fuel : Nat) (d : ℚ) (r : Option ℚ) (ctr : Int),
      (genLoop S days step fuel d r ctr).1.length ≤ fuel := by
  intro fuel
  induction fuel with
  | zero =>
      intro d r ctr
      simp [genLoop]
  | succ n ih =>
      intro d r ctr
      by_cases h : 0 < d
      · simp only [genLoop, if_pos h, List.length_cons]
        exact Nat.succ_le_succ (ih _ _ _)
      · simp [genLoop, if_neg h]

/-- The generated segments are exactly the allocations at the doses of
`doseSeq`, in order. -/
lemma genLoop_tablets_eq (S : List ℚ) (days step : ℚ) :
    ∀ (fuel : Nat) (d : ℚ) (r : Option ℚ) (ctr : Int),
      (genLoop S days step fuel d r ctr).1.map Segment.tablets
        = (doseSeq step fuel d).map fun x => (allocateTablets x S).1 := by
  intro fuel
  induction fuel with
  | zero =>
      intro d r ctr
      simp [genLoop, doseSeq]
  | succ n ih =>
      intro d r ctr
      by_cases h : 0 < d
      · simp only [genLoop, doseSeq, if_pos h, List.map_cons]
        exact congrArg _ (ih _ _ _)
      · simp [genLoop, doseSeq, if_neg h]

lemma doseSeq_step {d : ℚ} (h : 0 < d) (step : ℚ) (fuel : Nat) :
    doseSeq step (fuel + 1) d = d :: doseSeq step fuel (max 0 (d - step)) := by
  simp [doseSeq, if_pos h]

lemma doseSeq_head (step : ℚ) (fuel : Nat) (d : ℚ) :
    ∀ y ∈ (doseSeq step fuel d).head?, y = d := by
  cases fuel with
  | zero => simp [doseSeq]
  | succ n =>
      by_cases h : 0 < d
      · simp [doseSeq, if_pos h]
      · simp [doseSeq, if_neg h]

/-- With a non-negative decrement the dose sequence is non-increasing. -/
lemma doseSeq_chain {step : ℚ} (hstep : 0 ≤ step) :
    ∀ (fuel : Nat) (d : ℚ), List.Chain' (fun a b => b ≤ a) (doseSeq step fuel d) := by
  intro fuel
  induction fuel with
  | zero =>
      intro d
      simp [doseSeq]
  | succ n ih =>
      intro d
      by_cases h : 0 < d
      · rw [doseSeq_step h]
        rw [List.chain'_cons']
        refine ⟨?_, ih _⟩
        intro y hy
        have hy' := doseSeq_head step n (max 0 (d - step)) y hy
        subst hy'
        exact max_le h.le (by linarith)
      · simp [doseSeq, if_neg h]

/-- With decrement `0` the dose sequence is constant and exhausts the fuel. -/
lemma doseSeq_const {d : ℚ} (hd : 0 < d) :
    ∀ fuel : Nat, doseSeq 0 fuel d = List.replicate fuel d := by
  intro fuel
  induction fuel with
  | zero => rfl
  | succ n ih =>
      rw [doseSeq_step hd]
      have e : max 0 (d - 0) = d := by
        rw [sub_zero]
        exact max_eq_right hd.le
      rw [e, ih, List.replicate_succ]

/-- With decrement `0` the loop emits `fuel` identical steps. -/
lemma genLoop_const {d : ℚ} (hd : 0 < d) (S : List ℚ) (days : ℚ) :
    ∀ (fuel : Nat) (rem : Option ℚ) (ctr : Int),
      (genLoop S days 0 fuel d rem ctr).1.map (fun sg => (sg.days, sg.frequency, sg.tablets))
        = List.replicate fuel (days, "Once daily (od)", (allocateTablets d S).1) := by
  intro fuel
  induction fuel with
  | zero =>
      intro rem ctr
      rfl
  | succ n ih =>
      intro rem ctr
      have e : max 0 (d - 0) = d := by
        rw [sub_zero]
        exact max_eq_right hd.le
      rw [genLoop_step hd e rfl rfl, List.map_cons, ih, List.replicate_succ]
      rfl

/- ### Claims about the allocator -/

/-- Claim C1 (amended): for every dose `D ≥ 0` and every list of positive
strengths `S`, `sum(strength * count) + remainder` equals `D` within
`0.005 * |S|` mg — each pass rounds the running remainder to two decimals,
contributing up to half a cent of drift — and hence within the claimed
0.01 mg whenever at most two strengths are in play. -/
theorem alloc_conservation_bound (D : ℚ) (S : List ℚ) (hD : 0 ≤ D)
    (hS : ∀ s ∈ S, 0 < s) :
    |tabletsSum (allocateTablets D S).1 + (allocateTablets D S).2 - D|
        ≤ (S.length : ℚ) / 200 ∧
    (S.length ≤ 2 →
      |tabletsSum (allocateTablets D S).1 + (allocateTablets D S).2 - D| ≤ 1 / 100) := by
  have h := allocGo_conserve S D
  refine ⟨h, fun hlen => ?_⟩
  have h2 : (S.length : ℚ) ≤ 2 := by exact_mod_cast hlen
  have h3 : (S.length : ℚ) / 200 ≤ 1 / 100 := by linarith
  exact le_trans h h3

theorem alloc_conservation_bound_witness :
    |tabletsSum (allocateTablets 30 [25, 5]).1 + (allocateTablets 30 [25, 5]).2 - 30|
      ≤ 1 / 100 :=
  (alloc_conservation_bound 30 [25, 5] (by norm_num)
    (by intro s hs; simp only [List.mem_cons, List.not_mem_nil, or_false] at hs
        rcases hs with rfl | rfl <;> norm_num)).2 (by norm_num)

/-- A strengths list on which the three remainder roundings drift in the
same direction; entering these as custom strengths is allowed by the UI. -/
def sTricky : List ℚ := [1.50999, 0.194998, 0.03666]

/-- Claim C1 (counterexample): at dose 1 with the three positive strengths
of `sTricky` the 0.01 mg conservation tolerance is exceeded: the allocator
returns total 1.004983 and remainder 0.01, off from the requested 1 by
0.014983. -/
theorem alloc_conservation_cex :
    (0 : ℚ) ≤ 1 ∧ (∀ s ∈ sTricky, 0 < s) ∧
    ¬ (|tabletsSum (allocateTablets 1 sTricky).1 + (allocateTablets 1 sTricky).2 - 1|
        ≤ 1 / 100) := by
  have hA : allocateTablets 1 sTricky
      = ([(1.50999, 1 / 2), (0.194998, 1), (0.03666, 3 / 2)], 0.01) := by
    norm_num [sTricky, allocateTablets, allocGo, halfFloor, round2, max_def]
  refine ⟨by norm_num, ?_, ?_⟩
  · intro s hs
    simp only [sTricky, List.mem_cons, List.not_mem_nil, or_false] at hs
    rcases hs with rfl | rfl | rfl <;> norm_num
  · rw [hA]
    have hsum : tabletsSum [((1.50999 : ℚ), 1 / 2), (0.194998, 1), (0.03666, 3 / 2)]
        = 1.004983 := by
      norm_num [tabletsSum]
    rw [hsum]
    have e : (1.004983 : ℚ) + 0.01 - 1 = 0.014983 := by norm_num
    rw [e, abs_of_nonneg (by norm_num)]
    norm_num

/-- Claim C2 (amended): the returned remainder is always ≥ 0 (the per-pass
count is clamped and never exceeds the running remainder), but
`sum(strength * count) ≤ D` can fail by up to the accumulated
remainder-rounding, i.e. the total is only bounded by `D + 0.005 * |S|`. -/
theorem alloc_no_overshoot_bound (D : ℚ) (S : List ℚ) (hD : 0 ≤ D)
    (hS : ∀ s ∈ S, 0 < s) :
    0 ≤ (allocateTablets D S).2 ∧
    tabletsSum (allocateTablets D S).1 ≤ D + (S.length : ℚ) / 200 := by
  have h1 := allocGo_rem_nonneg S D hD hS
  have h2 := allocGo_conserve S D
  refine ⟨h1, ?_⟩
  have h3 : tabletsSum (allocateTablets D S).1 + (allocateTablets D S).2 - D
      ≤ (S.length : ℚ) / 200 := (abs_le.mp h2).2
  have h4 : 0 ≤ (allocateTablets D S).2 := h1
  linarith

theorem alloc_no_overshoot_bound_witness :
    0 ≤ (allocateTablets 27 [25, 5]).2 ∧
    tabletsSum (allocateTablets 27 [25, 5]).1 ≤ 27 + (([25, 5] : List ℚ).length : ℚ) / 200 :=
  alloc_no_overshoot_bound 27 [25, 5] (by norm_num)
    (by intro s hs; simp only [List.mem_cons, List.not_mem_nil, or_false] at hs
        rcases hs with rfl | rfl <;> norm_num)

/-- Claim C2 (counterexample): at dose 1 with the strengths of `sTricky`
the allocated total is 1.004983 > 1: rounding the running remainder up to
two decimals lets later strengths over-allocate, so `sum ≤ D` fails even
though the remainder (0.01) is non-negative. -/
theorem alloc_overshoot_cex :
    (0 : ℚ) ≤ 1 ∧ (∀ s ∈ sTricky, 0 < s) ∧
    ¬ (tabletsSum (allocateTablets 1 sTricky).1 ≤ 1) := by
  have hA : allocateTablets 1 sTricky
      = ([(1.50999, 1 / 2), (0.194998, 1), (0.03666, 3 / 2)], 0.01) := by
    norm_num [sTricky, allocateTablets, allocGo, halfFloor, round2, max_def]
  refine ⟨by norm_num, ?_, ?_⟩
  · intro s hs
    simp only [sTricky, List.mem_cons, List.not_mem_nil, or_false] at hs
    rcases hs with rfl | rfl | rfl <;> norm_num
  · rw [hA]
    have hsum : tabletsSum [((1.50999 : ℚ), 1 / 2), (0.194998, 1), (0.03666, 3 / 2)]
        = 1.004983 := by
      norm_num [tabletsSum]
    rw [hsum]
    norm_num

/-- Claim C7: every tablet count returned by the allocator is non-negative
and an exact multiple of 0.5 (i.e. of the form `k / 2` for an integer
`k`), for every requested dose and every list of positive strengths. -/
theorem alloc_counts_nonneg_half (D : ℚ) (S : List ℚ) (hS : ∀ s ∈ S, 0 < s) :
    ∀ p ∈ (allocateTablets D S).1, 0 ≤ p.2 ∧ ∃ k : ℤ, p.2 = (k : ℚ) / 2 :=
  fun p hp => allocGo_counts S D p hp

theorem alloc_counts_nonneg_half_witness :
    0 ≤ ((25 : ℚ), (1 : ℚ)).2 ∧ ∃ k : ℤ, ((25 : ℚ), (1 : ℚ)).2 = (k : ℚ) / 2 :=
  alloc_counts_nonneg_half 30 [25, 5]
    (by intro s hs; simp only [List.mem_cons, List.not_mem_nil, or_false] at hs
        rcases hs with rfl | rfl <;> norm_num)
    ((25 : ℚ), (1 : ℚ))
    (by have hA : allocateTablets 30 [25, 5] = ([(25, 1), (5, 1)], 0) := by
          norm_num [allocateTablets, allocGo, halfFloor, round2, max_def]
        rw [hA]
        simp)

/-- Claim C8: at requested dose 0 every returned count is 0 and the
remainder is 0, for any list of positive strengths; with an empty
strengths list the tablets are empty and the remainder is the full dose.
Both are ordinary return values: the (total) model raises nothing. -/
theorem alloc_edge_cases :
    (∀ S : List ℚ, (∀ s ∈ S, 0 < s) →
        (∀ p ∈ (allocateTablets 0 S).1, p.2 = 0) ∧ (allocateTablets 0 S).2 = 0) ∧
    (∀ D : ℚ, allocateTablets D [] = ([], D)) := by
  constructor
  · intro S hS
    constructor
    · intro p hp
      rw [show allocateTablets 0 S = allocGo 0 S from rfl, allocGo_zero S] at hp
      simp only [List.mem_map] at hp
      obtain ⟨s, hs, rfl⟩ := hp
      rfl
    · rw [show allocateTablets 0 S = allocGo 0 S from rfl, allocGo_zero S]
  · intro D
    rfl

theorem alloc_edge_cases_witness :
    (allocateTablets 0 [5]).2 = 0 ∧ allocateTablets 7 [] = ([], 7) :=
  ⟨(alloc_edge_cases.1 [5]
      (by intro s hs; simp only [List.mem_cons, List.not_mem_nil, or_false] at hs
          rcases hs with rfl <;> norm_num)).2,
   alloc_edge_cases.2 7⟩

/- ### Claims about the generation loop -/

/-- Claim C4 (amended): in byTabletCount mode the per-iteration decrement
is the raw product `stepStrength * stepTablets`; neither factor is
clamped, so the decrement is negative whenever exactly one factor is. -/
theorem decrement_tablet_mode_unclamped (a : AutoConfig) (h : a.mode = Mode.tablet) :
    decrementOf a = a.stepStrength * a.stepTablets := by
  simp [decrementOf, h]

theorem decrement_tablet_mode_unclamped_witness :
    decrementOf ⟨10, 3, Mode.tablet, 5, -5, 1, none⟩
      = (⟨10, 3, Mode.tablet, 5, -5, 1, none⟩ : AutoConfig).stepStrength
        * (⟨10, 3, Mode.tablet, 5, -5, 1, none⟩ : AutoConfig).stepTablets :=
  decrement_tablet_mode_unclamped _ rfl

/-- Claim C4 (counterexample): with `stepStrength = -5` and
`stepTablets = 1` the decrement computed by the code is `-5`: it differs
from the claimed clamped product `max 0 (-5) * max 0 1 = 0` and is
negative. -/
theorem decrement_tablet_mode_cex :
    decrementOf ⟨10, 3, Mode.tablet, 5, -5, 1, none⟩ ≠ max 0 (-5 : ℚ) * max 0 (1 : ℚ) ∧
    decrementOf ⟨10, 3, Mode.tablet, 5, -5, 1, none⟩ < 0 := by
  have h : decrementOf ⟨10, 3, Mode.tablet, 5, -5, 1, none⟩ = -5 := by
    norm_num [decrementOf]
  constructor
  · rw [h]
    norm_num [max_def]
  · rw [h]
    norm_num

def cfgZeroStep : AutoConfig := ⟨10, 3, Mode.mg, 0, 5, 1, none⟩

/-- Claim C5: the generation loop emits at most 200 steps for every config,
strengths list and id counter; and with startDose 10, stepMilligram 0 and
strengths [5] it emits exactly 200 steps that agree in days, frequency and
tablets (ids, a UI bookkeeping field, differ), each allocated at dose 10
(two 5 mg tablets). -/
theorem generate_cap_two_hundred :
    (∀ (a : AutoConfig) (S : List ℚ) (ctr : Int),
        (generateSegments a S ctr).1.length ≤ 200) ∧
    ((generateSegments cfgZeroStep [5] 1).1.map fun sg => (sg.days, sg.frequency, sg.tablets))
      = List.replicate 200 ((3 : ℚ), "Once daily (od)", [((5 : ℚ), (2 : ℚ))]) ∧
    generateDoses cfgZeroStep = List.replicate 200 (10 : ℚ) := by
  refine ⟨fun a S ctr => genLoop_length_le _ _ _ 200 _ _ _, ?_, ?_⟩
  · have hA : allocateTablets 10 [5] = ([(5, 2)], 0) := by
      norm_num [allocateTablets, allocGo, halfFloor, round2, max_def]
    have hsc : generateSegments cfgZeroStep [5] 1 = genLoop [5] 3 0 200 10 none 1 := by
      norm_num [generateSegments, cfgZeroStep, decrementOf, jsOr, max_def]
    rw [hsc, genLoop_const (by norm_num : (0 : ℚ) < 10) [5] 3 200 none 1, hA]
  · have hds : generateDoses cfgZeroStep = doseSeq 0 200 10 := by
      norm_num [generateDoses, cfgZeroStep, decrementOf, jsOr, max_def]
    rw [hds, doseSeq_const (by norm_num : (0 : ℚ) < 10) 200]

def cfgNegStep : AutoConfig := ⟨10, 3, Mode.tablet, 5, -5, 1, none⟩

/-- Claim C6 (amended): whenever the computed decrement is non-negative
(as it always is in byMilligram mode), every dose used by the generation
loop is less than or equal to the dose of the preceding step. -/
theorem generate_doses_monotone (a : AutoConfig) (h : 0 ≤ decrementOf a) :
    List.Chain' (fun x y => y ≤ x) (generateDoses a) :=
  doseSeq_chain h 200 _

theorem generate_doses_monotone_witness :
    List.Chain' (fun x y => y ≤ x) (generateDoses ⟨15, 3, Mode.mg, 5, 5, 1, none⟩) :=
  generate_doses_monotone _ (le_max_left _ _)

/-- Claim C6 (counterexample): in byTabletCount mode with
`stepStrength = -5` the decrement is negative, so the dose sequence for
startDose 10 begins 10, 15, ... and is not non-increasing. -/
theorem generate_doses_monotone_cex :
    ¬ List.Chain' (fun x y => y ≤ x) (generateDoses cfgNegStep) := by
  have h0 : generateDoses cfgNegStep = doseSeq (-5) 200 10 := by
    norm_num [generateDoses, cfgNegStep, decrementOf, jsOr, max_def]
  have h1 : doseSeq (-5 : ℚ) 200 10 = 10 :: doseSeq (-5) 199 (max 0 (10 - -5)) :=
    doseSeq_step (by norm_num) _ _
  have h2 : max (0 : ℚ) (10 - -5) = 15 := by norm_num [max_def]
  have h3 : doseSeq (-5 : ℚ) 199 15 = 15 :: doseSeq (-5) 198 (max 0 (15 - -5)) :=
    doseSeq_step (by norm_num) _ _
  intro hch
  rw [h0, h1, h2, h3, List.chain'_cons] at hch
  have h15 : (15 : ℚ) ≤ 10 := hch.1
  norm_num at h15

/- ### Projections of generateAutoSchedule and evaluation helpers -/

lemma rat_beq_false {a b : ℚ} (h : a ≠ b) : (a == b) = false :=
  beq_eq_false_iff_ne.mpr h

lemma generateAutoSchedule_segments (st : AppState) :
    (generateAutoSchedule st).segments =
      (if (generateSegments (normalizeStrengths st).auto (normalizeStrengths st).strengths
            (normalizeStrengths st).segmentId).1 = []
       then (normalizeStrengths st).segments
       else (generateSegments (normalizeStrengths st).auto (normalizeStrengths st).strengths
            (normalizeStrengths st).segmentId).1) := rfl

lemma generateAutoSchedule_strengths (st : AppState) :
    (generateAutoSchedule st).strengths = sortDesc (jsDedup st.strengths) := rfl

lemma generateAutoSchedule_lastRemainder (st : AppState) :
    (generateAutoSchedule st).auto.lastRemainder =
      (generateSegments (normalizeStrengths st).auto (normalizeStrengths st).strengths
        (normalizeStrengths st).segmentId).2.1 := rfl

/- ### Claim C3: the spec's third example scenario -/

def auto3 : AutoConfig := ⟨15, 3, Mode.mg, 5, 5, 1, none⟩

def st3 : AppState :=
  ⟨Medication.prednisolone, true, "", [10, 5], "", [], auto3, false, 1⟩

/-- Running the auto taper of the spec's example 3 (startDose 15,
stepDays 3, byMilligram 5, strengths [10, 5]) yields three segments whose
tablet records are computed here once for both directions of claim C3. -/
lemma st3_segments_eval :
    (generateAutoSchedule st3).segments
      = [⟨1, 3, "Once daily (od)", [(10, 3 / 2), (5, 0)]⟩,
         ⟨2, 3, "Once daily (od)", [(10, 1), (5, 0)]⟩,
         ⟨3, 3, "Once daily (od)", [(10, 1 / 2), (5, 0)]⟩] := by
  have hn : normalizeStrengths st3 = st3 := by
    norm_num [normalizeStrengths, sortDesc, jsDedup, jsDedupGo,
      List.insertionSort, List.orderedInsert, st3]
  have hs3 : generateSegments auto3 [10, 5] 1 = genLoop [10, 5] 3 5 200 15 none 1 := by
    norm_num [generateSegments, auto3, decrementOf, jsOr, max_def]
  have a15 : allocateTablets 15 [10, 5] = ([(10, 3 / 2), (5, 0)], 0) := by
    norm_num [allocateTablets, allocGo, halfFloor, round2, max_def]
  have a10 : allocateTablets 10 [10, 5] = ([(10, 1), (5, 0)], 0) := by
    norm_num [allocateTablets, allocGo, halfFloor, round2, max_def]
  have a5 : allocateTablets 5 [10, 5] = ([(10, 1 / 2), (5, 0)], 0) := by
    norm_num [allocateTablets, allocGo, halfFloor, round2, max_def]
  have r3 : genLoop [10, 5] 3 5 197 0 (some 0) 4 = ([], some 0, 4) :=
    genLoop_stop le_rfl _ _ _ _ _ _
  have r2 : genLoop [10, 5] 3 5 198 5 (some 0) 3
      = ([⟨3, 3, "Once daily (od)", [(10, 1 / 2), (5, 0)]⟩], some 0, 4) :=
    genLoop_step (by norm_num) (by norm_num [max_def]) a5 r3
  have r1 : genLoop [10, 5] 3 5 199 10 (some 0) 2
      = ([⟨2, 3, "Once daily (od)", [(10, 1), (5, 0)]⟩,
          ⟨3, 3, "Once daily (od)", [(10, 1 / 2), (5, 0)]⟩], some 0, 4) :=
    genLoop_step (by norm_num) (by norm_num [max_def]) a10 r2
  have r0 : genLoop [10, 5] 3 5 200 15 none 1
      = ([⟨1, 3, "Once daily (od)", [(10, 3 / 2), (5, 0)]⟩,
          ⟨2, 3, "Once daily (od)", [(10, 1), (5, 0)]⟩,
          ⟨3, 3, "Once daily (od)", [(10, 1 / 2), (5, 0)]⟩], some 0, 4) :=
    genLoop_step (by norm_num) (by norm_num [max_def]) a15 r1
  have hout : generateSegments (normalizeStrengths st3).auto (normalizeStrengths st3).strengths
      (normalizeStrengths st3).segmentId
      = ([⟨1, 3, "Once daily (od)", [(10, 3 / 2), (5, 0)]⟩,
          ⟨2, 3, "Once daily (od)", [(10, 1), (5, 0)]⟩,
          ⟨3, 3, "Once daily (od)", [(10, 1 / 2), (5, 0)]⟩], some 0, 4) := by
    rw [hn]
    show generateSegments auto3 [10, 5] 1 = _
    rw [hs3]
    exact r0
  rw [generateAutoSchedule_segments, hout]
  rw [if_neg (by simp)]

/-- Claim C3 (counterexample): with the spec's example-3 config the three
generated steps do not carry the claimed tablet maps {10:1, 5:1},
{10:1, 5:0}, {10:0, 5:1}: the greedy allocator works in half-tablet
increments, so dose 15 is served as 1.5 x 10 mg, and dose 5 as
0.5 x 10 mg. -/
theorem auto_taper_example_cex :
    ¬ (((generateAutoSchedule st3).segments.map fun sg =>
          (lookup0 sg.tablets 10, lookup0 sg.tablets 5))
        = [((1 : ℚ), (1 : ℚ)), (1, 0), (0, 1)]) := by
  rw [st3_segments_eval]
  intro h
  have h1 : lookup0 [((10 : ℚ), (3 : ℚ) / 2), (5, 0)] 10 = 1 := by
    have := congrArg (fun l => l.headD ((0 : ℚ), (0 : ℚ))) h
    simpa using congrArg Prod.fst this
  rw [show lookup0 [((10 : ℚ), (3 : ℚ) / 2), (5, 0)] 10 = 3 / 2 by
    norm_num [lookup0, List.lookup, rat_beq_false]] at h1
  norm_num at h1

/-- Claim C3 (amended): the example-3 config yields exactly three steps of
3 days each, with tablets {10: 1.5, 5: 0} for dose 15, {10: 1, 5: 0} for
dose 10 and {10: 0.5, 5: 0} for dose 5. -/
theorem auto_taper_example_steps :
    ((generateAutoSchedule st3).segments.map fun sg =>
        (sg.days, lookup0 sg.tablets 10, lookup0 sg.tablets 5))
      = [((3 : ℚ), (3 : ℚ) / 2, (0 : ℚ)), (3, 1, 0), (3, 1 / 2, 0)] ∧
    (generateAutoSchedule st3).segments.length = 3 := by
  rw [st3_segments_eval]
  constructor
  · norm_num [lookup0, List.lookup, rat_beq_false]
  · rfl

/- ### Claim C9: what generate does to the caller's state -/

def st9 : AppState :=
  ⟨Medication.prednisolone, true, "", [5, 25], "", [], ⟨30, 3, Mode.mg, 5, 5, 1, none⟩,
   false, 1⟩

/-- Claim C9 (counterexample): calling generate on a state whose strengths
list is [5, 25] (not yet descending-sorted) leaves the state with
strengths [25, 5]: the core itself renormalizes — and thereby updates —
the caller's strengths, rather than treating them as read-only. -/
theorem generate_strengths_cex :
    (generateAutoSchedule st9).strengths ≠ st9.strengths := by
  rw [generateAutoSchedule_strengths]
  show sortDesc (jsDedup [5, 25]) ≠ [5, 25]
  have h : sortDesc (jsDedup ([5, 25] : List ℚ)) = [25, 5] := by
    norm_num [sortDesc, jsDedup, jsDedupGo, List.insertionSort, List.orderedInsert]
  rw [h]
  intro hc
  have h25 : (25 : ℚ) = 5 := by
    have := congrArg (fun l => l.headD (0 : ℚ)) hc
    simpa using this
  norm_num at h25

/-- Claim C9 (amended): generate preserves the six AutoTaperConfig fields
of the spec (startDose, stepDays, mode, stepMg, stepStrength,
stepTablets); the allocator is a pure function of its arguments; but
generate replaces the state's strengths with their normalized
(deduplicated, descending-sorted) value, which coincides with the
original exactly when the caller's list was already normalized.  (The
code's auto record additionally holds lastRemainder, which generate does
overwrite.) -/
theorem generate_preserves_config_fields (st : AppState) :
    (generateAutoSchedule st).auto.startDose = st.auto.startDose ∧
    (generateAutoSchedule st).auto.stepDays = st.auto.stepDays ∧
    (generateAutoSchedule st).auto.mode = st.auto.mode ∧
    (generateAutoSchedule st).auto.stepMg = st.auto.stepMg ∧
    (generateAutoSchedule st).auto.stepStrength = st.auto.stepStrength ∧
    (generateAutoSchedule st).auto.stepTablets = st.auto.stepTablets ∧
    (generateAutoSchedule st).strengths = sortDesc (jsDedup st.strengths) ∧
    (sortDesc (jsDedup st.strengths) = st.strengths →
      (generateAutoSchedule st).strengths = st.strengths) := by
  refine ⟨rfl, rfl, rfl, rfl, rfl, rfl, rfl, fun h => ?_⟩
  rw [generateAutoSchedule_strengths, h]

def st9n : AppState :=
  ⟨Medication.prednisolone, true, "", [25, 5], "", [], ⟨30, 3, Mode.mg, 5, 5, 1, none⟩,
   false, 1⟩

theorem generate_preserves_config_fields_witness :
    (generateAutoSchedule st9n).strengths = st9n.strengths :=
  (generate_preserves_config_fields st9n).2.2.2.2.2.2.2
    (by norm_num [st9n, sortDesc, jsDedup, jsDedupGo,
          List.insertionSort, List.orderedInsert])

/- ### Claim C10: the zero-steps path of generateAutoSchedule -/

def st10 : AppState :=
  ⟨Medication.prednisolone, true, "", [5], "",
   [⟨7, 3, "Once daily (od)", [(7, 2)]⟩], ⟨0, 3, Mode.mg, 5, 5, 1, some 2⟩, false, 8⟩

/-- The generation pass of `st10` (clamped start dose 0) emits no
segments and keeps the initial null remainder. -/
lemma st10_loop_eval :
    generateSegments (normalizeStrengths st10).auto (normalizeStrengths st10).strengths
      (normalizeStrengths st10).segmentId
      = ([], none, (normalizeStrengths st10).segmentId) := by
  show genLoop _ _ _ 200 (max 0 (jsOr (normalizeStrengths st10).auto.startDose 0)) none _ = _
  have h : max 0 (jsOr (normalizeStrengths st10).auto.startDose 0) = 0 := by
    show max 0 (jsOr (0 : ℚ) 0) = 0
    norm_num [jsOr, max_def]
  rw [h]
  exact genLoop_stop le_rfl _ _ _ _ _ _

/-- Claim C10 (counterexample): on `st10` the loop produces zero steps and
the recorded last remainder is indeed null, but the existing segments are
not left unchanged: `normalizeStrengths`, which generate runs first,
rewrites each segment's tablets to range over the normalized strengths
(here turning tablets {7: 2} into {5: 0}). -/
theorem generate_zero_steps_cex :
    (generateSegments (normalizeStrengths st10).auto (normalizeStrengths st10).strengths
        (normalizeStrengths st10).segmentId).1 = [] ∧
    (generateAutoSchedule st10).auto.lastRemainder = none ∧
    ((generateAutoSchedule st10).segments.map fun sg => sg.tablets)
      ≠ st10.segments.map fun sg => sg.tablets := by
  refine ⟨by rw [st10_loop_eval], ?_, ?_⟩
  · rw [generateAutoSchedule_lastRemainder, st10_loop_eval]
  · rw [generateAutoSchedule_segments, st10_loop_eval]
    rw [if_pos rfl]
    have hn : (normalizeStrengths st10).segments
        = [⟨7, 3, "Once daily (od)", [(5, 0)]⟩] := by
      norm_num [normalizeStrengths, sortDesc, jsDedup, jsDedupGo,
        List.insertionSort, List.orderedInsert, st10, lookup0, List.lookup, rat_beq_false]
    rw [hn]
    intro hc
    have h5 : ((5 : ℚ), (0 : ℚ)) = ((7 : ℚ), (2 : ℚ)) := by
      have := congrArg (fun l => l.headD [((0 : ℚ), (0 : ℚ))]) hc
      simpa [st10] using congrArg (fun l => l.headD ((0 : ℚ), (0 : ℚ))) this
    have := congrArg Prod.fst h5
    norm_num at this

/-- Claim C10 (amended): when the clamped start dose is 0 the generation
loop emits no steps, so the state's segments are not replaced by the
empty generated list — they are whatever `normalizeStrengths` left (the
original segments exactly when the state was already normalized) — and
the recorded last remainder is set to null. -/
theorem generate_zero_steps_segments (st : AppState)
    (h : max 0 (jsOr st.auto.startDose 0) = 0) :
    (generateAutoSchedule st).segments = (normalizeStrengths st).segments ∧
    (generateAutoSchedule st).auto.lastRemainder = none ∧
    (normalizeStrengths st = st → (generateAutoSchedule st).segments = st.segments) := by
  have hauto : (normalizeStrengths st).auto = st.auto := rfl
  have hloop : generateSegments (normalizeStrengths st).auto (normalizeStrengths st).strengths
      (normalizeStrengths st).segmentId
      = ([], none, (normalizeStrengths st).segmentId) := by
    show genLoop _ _ _ 200 (max 0 (jsOr (normalizeStrengths st).auto.startDose 0)) none _ = _
    have h2 : max 0 (jsOr (normalizeStrengths st).auto.startDose 0) = 0 := by
      rw [hauto]
      exact h
    rw [h2]
    exact genLoop_stop le_rfl _ _ _ _ _ _
  refine ⟨?_, ?_, ?_⟩
  · rw [generateAutoSchedule_segments, hloop, if_pos rfl]
  · rw [generateAutoSchedule_lastRemainder, hloop]
  · intro hN
    rw [generateAutoSchedule_segments, hloop, if_pos rfl, hN]

def st10n : AppState :=
  ⟨Medication.prednisolone, true, "", [5], "", [], ⟨0, 3, Mode.mg, 5, 5, 1, some 2⟩,
   false, 8⟩

theorem generate_zero_steps_segments_witness :
    (generateAutoSchedule st10n).auto.lastRemainder = none ∧
    (generateAutoSchedule st10n).segments = st10n.segments := by
  have hpre : max 0 (jsOr st10n.auto.startDose 0) = 0 := by
    show max 0 (jsOr (0 : ℚ) 0) = 0
    norm_num [jsOr, max_def]
  have hnorm : normalizeStrengths st10n = st10n := by
    norm_num [normalizeStrengths, sortDesc, jsDedup, jsDedupGo,
      List.insertionSort, List.orderedInsert, st10n]
  exact ⟨(generate_zero_steps_segments st10n hpre).2.1,
         (generate_zero_steps_segments st10n hpre).2.2 hnorm⟩
